import Mathlib

/-!
Verification development for the "Download Hub" Bun + SQLite application
(`src/server.ts`, `src/db.ts`, `src/config.ts`).

The definitions below are a shallow embedding of the relevant source
functions.  Machine integers are modelled as `Nat`/`Int`, database tables as
lists of record structures, and SQL statements as pure functions on those
lists.  Timestamps are modelled structurally (`DateTime`) together with the
two textual renderings the code actually uses: JavaScript
`Date.prototype.toISOString` ("YYYY-MM-DDTHH:MM:SS.mmmZ") and SQLite
`datetime('now')` ("YYYY-MM-DD HH:MM:SS"), both in UTC.
-/

namespace DownloadHub

/-! ## Calendar / timestamp model -/

/-- Gregorian leap-year test (proleptic, as used by both JS `Date` and
SQLite). -/
def isLeapYear (y : Nat) : Bool :=
  y % 4 = 0 && (y % 100 ≠ 0 || y % 400 = 0)

/-- Number of days in a month (1-based month). -/
def daysInMonth (y m : Nat) : Nat :=
  if m = 1 then 31 else if m = 2 then (if isLeapYear y then 29 else 28)
  else if m = 3 then 31 else if m = 4 then 30 else if m = 5 then 31
  else if m = 6 then 30 else if m = 7 then 31 else if m = 8 then 31
  else if m = 9 then 30 else if m = 10 then 31 else if m = 11 then 30
  else 31

def daysInYear (y : Nat) : Nat :=
  if isLeapYear y then 366 else 365

/-- Days from 1970-01-01 to the start of year `y` (for `y ≥ 1970`). -/
def daysBeforeYear (y : Nat) : Nat :=
  (List.range (y - 1970)).foldl (fun acc i => acc + daysInYear (1970 + i)) 0

/-- Days from the start of year `y` to the start of month `m` (1-based). -/
def daysBeforeMonth (y m : Nat) : Nat :=
  (List.range (m - 1)).foldl (fun acc i => acc + daysInMonth y (i + 1)) 0

/-- A UTC instant, structurally. -/
structure DateTime where
  year : Nat
  month : Nat
  day : Nat
  hour : Nat
  minute : Nat
  second : Nat
  millis : Nat
  deriving Repr, DecidableEq

/-- Days since the Unix epoch for a calendar date (`year ≥ 1970`). -/
def daysSinceEpoch (y m d : Nat) : Nat :=
  daysBeforeYear y + daysBeforeMonth y m + (d - 1)

/-- Epoch milliseconds of a `DateTime`, i.e. what `Date.prototype.getTime`
returns for that UTC instant. -/
def DateTime.toEpochMillis (t : DateTime) : Int :=
  ((((((daysSinceEpoch t.year t.month t.day) * 24 + t.hour) * 60 + t.minute)
      * 60 + t.second : Nat) : Int) * 1000 + (t.millis : Int))

/-- Left-pads a decimal rendering of `n` with zeros to width `w`. -/
def padNum (w n : Nat) : String :=
  let s := Nat.repr n
  String.mk (List.replicate (w - s.length) '0') ++ s

/-- The string `Date.prototype.toISOString` produces for a UTC instant:
`YYYY-MM-DDTHH:MM:SS.mmmZ`. -/
def DateTime.toIsoString (t : DateTime) : String :=
  padNum 4 t.year ++ "-" ++ padNum 2 t.month ++ "-" ++ padNum 2 t.day ++ "T"
    ++ padNum 2 t.hour ++ ":" ++ padNum 2 t.minute ++ ":" ++ padNum 2 t.second
    ++ "." ++ padNum 3 t.millis ++ "Z"

/-- The string SQLite `datetime('now')` produces (UTC):
`YYYY-MM-DD HH:MM:SS`. -/
def DateTime.toSqliteString (t : DateTime) : String :=
  padNum 4 t.year ++ "-" ++ padNum 2 t.month ++ "-" ++ padNum 2 t.day ++ " "
    ++ padNum 2 t.hour ++ ":" ++ padNum 2 t.minute ++ ":" ++ padNum 2 t.second

/-- Value of a decimal digit character. -/
def digitVal (c : Char) : Option Nat :=
  if c.isDigit then some (c.toNat - 48) else none

/-- Parses a fixed list of characters as a decimal number; `none` if any
character is not a digit. -/
def digitsVal (cs : List Char) : Option Nat :=
  cs.foldl
    (fun acc c =>
      match acc, digitVal c with
      | some n, some d => some (n * 10 + d)
      | _, _ => none)
    (some 0)

/-- Model of `new Date(s).getTime()` for strings in the exact format the
application writes into `sessions.expires_at` (the output of
`toISOString`, years ≥ 1970).  Returns `none` where JS would produce `NaN`
(malformed string or out-of-range fields). -/
def parseIsoMillis (s : String) : Option Int :=
  match s.data with
  | [y1, y2, y3, y4, '-', m1, m2, '-', d1, d2, 'T',
     h1, h2, ':', i1, i2, ':', s1, s2, '.', l1, l2, l3, 'Z'] => do
    let y ← digitsVal [y1, y2, y3, y4]
    let mo ← digitsVal [m1, m2]
    let d ← digitsVal [d1, d2]
    let h ← digitsVal [h1, h2]
    let mi ← digitsVal [i1, i2]
    let se ← digitsVal [s1, s2]
    let ms ← digitsVal [l1, l2, l3]
    if 1970 ≤ y ∧ 1 ≤ mo ∧ mo ≤ 12 ∧ 1 ≤ d ∧ d ≤ daysInMonth y mo
        ∧ h ≤ 23 ∧ mi ≤ 59 ∧ se ≤ 59 then
      some (DateTime.toEpochMillis ⟨y, mo, d, h, mi, se, ms⟩)
    else
      none
  | _ => none

/-! ## SQLite TEXT comparison (BINARY collation = bytewise memcmp; all the
strings involved are ASCII, so a character-code comparison is exact). -/

def charsLt : List Char → List Char → Bool
  | _, [] => false
  | [], _ :: _ => true
  | c :: cs, d :: ds =>
    if c.toNat < d.toNat then true
    else if d.toNat < c.toNat then false
    else charsLt cs ds

/-- SQLite `<` on TEXT values under the default BINARY collation. -/
def textLt (a b : String) : Bool := charsLt a.data b.data

/-! ## Session store (table `sessions` of `src/db.ts`) -/

/-- A row of the `sessions` table. -/
structure SessionRecord where
  id : String
  created_at : String
  expires_at : String
  ip_address : Option String
  user_agent : Option String
  deriving Repr, DecidableEq

/-- List of rows; `id` is the primary key (unique by construction of
`createSession`, which inserts a fresh UUID). -/
def SessionStore := List SessionRecord

instance : DecidableEq SessionStore := by
  unfold SessionStore; infer_instance

/-- Model of `SELECT * FROM sessions WHERE id = ?` followed by `.get`
(first matching row, if any). -/
def selectSession (id : String) (st : SessionStore) : Option SessionRecord :=
  st.find? (fun r => r.id == id)

/-- Model of `deleteSession`: `DELETE FROM sessions WHERE id = ?`. -/
def deleteSession (id : String) (st : SessionStore) : SessionStore :=
  st.filter (fun r => r.id ≠ id)

/-- Model of `findSession` (`src/db.ts`): fetch the row; if present and
`new Date(row.expires_at).getTime() < Date.now()`, delete it and return
`null`; otherwise return the row.  `nowMs` is `Date.now()`.  A row whose
`expires_at` does not parse gives `NaN`, and `NaN < now` is `false` in JS,
so such a row is returned as live. -/
def findSession (id : String) (nowMs : Int) (st : SessionStore) :
    Option SessionRecord × SessionStore :=
  match selectSession id st with
  | none => (none, st)
  | some row =>
    match parseIsoMillis row.expires_at with
    | some t => if t < nowMs then (none, deleteSession id st) else (some row, st)
    | none => (some row, st)

/-- Model of `pruneSessions` (`src/db.ts`):
`DELETE FROM sessions WHERE expires_at < datetime('now')` — a TEXT
comparison between the stored string and the `datetime('now')` rendering of
the current instant. -/
def pruneSessions (now : DateTime) (st : SessionStore) : SessionStore :=
  st.filter (fun r => !textLt r.expires_at now.toSqliteString)

/-! ## Credential manager (`derivePasswordHash` / `passwordsMatch` in
`src/server.ts`)

The code applies `pbkdf2Sync(password, salt, 120000, 64, "sha512")` and
hex-encodes the result.  The key-derivation function itself is a fixed
deterministic map from (password, salt) to a byte string; it is modelled
here as an explicit function parameter `kdf` (its 120000-iteration SHA-512
internals are not re-implemented), while the hex encoding, buffer decoding,
length check and constant-time comparison of `passwordsMatch` are embedded
faithfully. -/

/-- A key-derivation function: password and salt to derived-key bytes. -/
def Kdf := String → String → List (Fin 256)

/-- Lowercase hex digit for a value below 16 (as produced by
`Buffer.prototype.toString("hex")`). -/
def hexDigit (n : Nat) : Char :=
  if n < 10 then Char.ofNat (48 + n) else Char.ofNat (87 + n)

/-- Hex encoding of a byte string (`Buffer.prototype.toString("hex")`). -/
def hexEncode (bs : List (Fin 256)) : String :=
  String.mk (bs.foldr (fun b acc => hexDigit (b.val / 16) :: hexDigit (b.val % 16) :: acc) [])

/-- Value of a hex digit character (`Buffer.from(s, "hex")` accepts both
cases). -/
def hexDigitVal (c : Char) : Option (Fin 16) :=
  if h : 48 ≤ c.toNat ∧ c.toNat ≤ 57 then some ⟨c.toNat - 48, by omega⟩
  else if h : 97 ≤ c.toNat ∧ c.toNat ≤ 102 then some ⟨c.toNat - 87, by omega⟩
  else if h : 65 ≤ c.toNat ∧ c.toNat ≤ 70 then some ⟨c.toNat - 55, by omega⟩
  else none

/-- Model of `Buffer.from(s, "hex")`: decodes complete valid hex pairs from
the front and stops at the first invalid pair or odd tail. -/
def hexDecodeChars : List Char → List (Fin 256)
  | c :: d :: rest =>
    match hexDigitVal c, hexDigitVal d with
    | some x, some y =>
      (⟨x.val * 16 + y.val, by omega⟩ : Fin 256) :: hexDecodeChars rest
    | _, _ => []
  | _ => []

/-- Result shape of `derivePasswordHash`. -/
structure HashResult where
  hash : String
  salt : String
  deriving Repr, DecidableEq

/-- Model of `derivePasswordHash` (`src/server.ts`).  The source resolves
`actualSalt` as `salt ?? randomBytes(16).toString("hex")`; the resolved
salt (given or freshly random) is taken here as the `actualSalt`
argument. -/
def derivePasswordHash (kdf : Kdf) (password actualSalt : String) : HashResult :=
  { hash := hexEncode (kdf password actualSalt), salt := actualSalt }

/-- Model of `passwordsMatch` (`src/server.ts`): recompute the digest,
decode both hex strings into buffers, reject on length mismatch, then
compare bytewise (`timingSafeEqual` is equality on equal-length
buffers; the surrounding `try/catch` returns `false` on exceptions, which
the length guard already rules out). -/
def passwordsMatch (kdf : Kdf) (password hash salt : String) : Bool :=
  let candidate := hexEncode (kdf password salt)
  let candidateBuffer := hexDecodeChars candidate.data
  let storedBuffer := hexDecodeChars hash.data
  if candidateBuffer.length ≠ storedBuffer.length then false
  else candidateBuffer == storedBuffer

/-- Hex digits decode back to their value. -/
lemma hexDigitVal_hexDigit (n : Fin 16) : hexDigitVal (hexDigit n.val) = some n := by
  fin_cases n <;> decide

/-- Decoding inverts encoding (the bytes of a hex-encoded buffer). -/
lemma hexDecodeChars_hexEncode (bs : List (Fin 256)) :
    hexDecodeChars (hexEncode bs).data = bs := by
  induction bs with
  | nil => decide
  | cons b rest ih =>
    have hdiv : b.val / 16 < 16 := by omega
    have hmod : b.val % 16 < 16 := by omega
    have h1 := hexDigitVal_hexDigit ⟨b.val / 16, hdiv⟩
    have h2 := hexDigitVal_hexDigit ⟨b.val % 16, hmod⟩
    simp only [hexEncode, String.mk] at ih ⊢
    simp only [List.foldr_cons, hexDecodeChars, h1, h2]
    refine congrArg₂ _ ?_ ih
    apply Fin.ext
    simp only [Fin.val_mk]
    omega

/-! ## Small JavaScript string helpers used by the handlers -/

/-- JS whitespace class `\s` restricted to the ASCII range (tab, LF, VT, FF,
CR, space); the application only feeds ASCII form data through these
helpers. -/
def jsWhitespace (c : Char) : Bool :=
  c.toNat = 32 || (9 ≤ c.toNat && c.toNat ≤ 13)

/-- Model of `String.prototype.trim`. -/
def jsTrim (s : String) : String :=
  String.mk (((s.data.dropWhile jsWhitespace).reverse.dropWhile jsWhitespace).reverse)

/-- Replaces every maximal run of characters satisfying `p` by the single
character `r` (a global regex replace of `p+` by `r`).  Run characters are
swallowed and the single `r` is emitted when the run ends (at a non-`p`
character or at the end of the input). -/
def replRuns (p : Char → Bool) (r : Char) : List Char → List Char
  | [] => []
  | [c] => if p c then [r] else [c]
  | c :: d :: rest =>
    if p c then
      if p d then replRuns p r (d :: rest)
      else r :: replRuns p r (d :: rest)
    else c :: replRuns p r (d :: rest)

/-- Model of the JS `x || undefined` coercion on an optional trimmed string
(empty string is falsy). -/
def optNonempty (o : Option String) : Option String :=
  match o with
  | some s => if s = "" then none else some s
  | none => none

/-! ## Slug generation (`slugify` in `src/server.ts`) -/

/-- Characters the regex class `[a-z0-9]` accepts (the input is already
lowercased when the regex runs). -/
def isSlugChar (c : Char) : Bool :=
  (97 ≤ c.toNat && c.toNat ≤ 122) || (48 ≤ c.toNat && c.toNat ≤ 57)

/-- Removes the leading and trailing runs of `-` (regex `^-+|-+$`). -/
def trimDashes (cs : List Char) : List Char :=
  (((cs.dropWhile (fun c => c = '-')).reverse.dropWhile (fun c => c = '-')).reverse)

/-- Model of `slugify` (`src/server.ts`): lowercase, collapse each run of
characters outside `[a-z0-9]` to a single `-`, strip leading/trailing `-`,
cap at 64 characters, and fall back to `video-${Date.now()}` when the
result is empty.  `nowMs` is `Date.now()`. -/
def slugify (nowMs : Nat) (input : String) : String :=
  let lowered := input.data.map Char.toLower
  let collapsed := replRuns (fun c => !isSlugChar c) '-' lowered
  let trimmed := trimDashes collapsed
  let sliced := trimmed.take 64
  if sliced = [] then "video-" ++ Nat.repr nowMs else String.mk sliced

/-- Model of `String.prototype.split` with a single-character separator
(as used with `","` and `"."`). -/
def splitOnChar (sep : Char) : List Char → List (List Char)
  | [] => [[]]
  | c :: rest =>
    match splitOnChar sep rest with
    | [] => [[]]
    | g :: gs => if c = sep then [] :: g :: gs else (c :: g) :: gs

/-- Model of `parseTags` (`src/server.ts`): split on commas, trim each tag,
drop empties. -/
def parseTags (input : Option String) : List String :=
  match input with
  | none => []
  | some s =>
    (((splitOnChar ',' s.data).map (fun cs => jsTrim (String.mk cs))).filter
      (fun t => t ≠ ""))

/-! ## Videos table (`src/db.ts`) and its operations

The `videos` table declares `slug TEXT NOT NULL UNIQUE` and an
autoincrement integer primary key.  The store is a list of rows plus the
next id; an `INSERT` violating the slug uniqueness constraint fails as a
whole, leaving the store unmodified. -/

/-- A row of the `videos` table.  The source serializes `tags` with
`JSON.stringify` into a TEXT column; the column is modelled by the tag
list itself (no claim depends on the JSON rendering). -/
structure VideoRow where
  id : Nat
  title : String
  slug : String
  description : Option String
  video_url : Option String
  tags : Option (List String)
  thumbnail_url : Option String
  created_at : String
  updated_at : String
  deriving Repr, DecidableEq

structure VideoStore where
  rows : List VideoRow
  nextId : Nat
  deriving Repr, DecidableEq

/-- Errors the store can raise; `ConflictError` is what SQLite raises for a
UNIQUE-constraint violation (the slug index). -/
inductive StoreErr where
  | ConflictError
  deriving Repr, DecidableEq

/-- Input of `createVideo` (`src/db.ts`). -/
structure CreateVideoData where
  title : String
  slug : String
  description : Option String
  video_url : Option String
  thumbnail_url : Option String
  tags : Option (List String)
  deriving Repr, DecidableEq

/-- Model of `createVideo` (`src/db.ts`): a single `INSERT INTO videos`;
fails with a uniqueness violation when some stored row already carries the
slug, and otherwise appends the new row (with `CURRENT_TIMESTAMP` defaults
`nowTs`) and returns its id. -/
def createVideo (d : CreateVideoData) (nowTs : String) (st : VideoStore) :
    Except StoreErr (Nat × VideoStore) :=
  if st.rows.any (fun r => r.slug == d.slug) then
    .error .ConflictError
  else
    .ok (st.nextId,
      { rows := st.rows ++
          [{ id := st.nextId, title := d.title, slug := d.slug,
             description := d.description, video_url := d.video_url,
             tags := d.tags, thumbnail_url := d.thumbnail_url,
             created_at := nowTs, updated_at := nowTs }],
        nextId := st.nextId + 1 })

/-- Store state after an attempted `createVideo`: a failed `INSERT` leaves
the table untouched. -/
def createVideoRun (d : CreateVideoData) (nowTs : String) (st : VideoStore) :
    VideoStore :=
  match createVideo d nowTs st with
  | .ok (_, st2) => st2
  | .error _ => st

/-- Input of `updateVideo` (`src/db.ts`). -/
structure UpdateVideoData where
  title : String
  description : Option String
  video_url : Option String
  thumbnail_url : Option String
  tags : Option (List String)
  deriving Repr, DecidableEq

/-- Model of `updateVideo` (`src/db.ts`): `UPDATE videos SET ... WHERE id = ?`.
Rows with a matching id get all listed columns plus `updated_at` replaced;
when no row matches, the statement affects zero rows and reports no
error. -/
def updateVideo (id : Nat) (d : UpdateVideoData) (nowTs : String)
    (st : VideoStore) : VideoStore :=
  { st with
    rows := st.rows.map (fun r =>
      if r.id = id then
        { r with title := d.title, description := d.description,
                 video_url := d.video_url, thumbnail_url := d.thumbnail_url,
                 tags := d.tags, updated_at := nowTs }
      else r) }

/-! ## Video form handlers (`src/server.ts`) -/

/-- Form fields of the admin video forms (`form.get(...)` results;
`none` is an absent field). -/
structure VideoForm where
  title : Option String
  slug : Option String
  description : Option String
  video_url : Option String
  thumbnail_url : Option String
  tags : Option String
  deriving Repr, DecidableEq

/-- Model of `youtubeThumbnailUrl` (`src/server.ts`). -/
def youtubeThumbnailUrl (videoId : String) : String :=
  "https://img.youtube.com/vi/" ++ videoId ++ "/maxresdefault.jpg"

/-- The `extractYouTubeVideoId` helper is a pure URL-parsing heuristic; it
is taken as an explicit function parameter `extractId` of the handlers
(its `URL`/regex internals are outside every claim; the spec itself calls
the thumbnail enrichment an optional step). -/
def ExtractId := Option String → Option String

/-- Model of `handleCreateVideo` (`src/server.ts`): validates a non-empty
trimmed title, resolves the slug (explicit trimmed slug when non-empty,
else `slugify(title)`), optionally enriches the thumbnail from the video
URL, and runs `createVideo`, converting success and failure to
redirects. -/
def handleCreateVideo (extractId : ExtractId) (form : VideoForm)
    (nowMs : Nat) (nowTs : String) (st : VideoStore) : String × VideoStore :=
  let title := (form.title.map jsTrim).getD ""
  if title = "" then ("/admin?error=Title+is+required", st)
  else
    let slugInput := (form.slug.map jsTrim).getD ""
    let slug := if slugInput ≠ "" then slugInput else slugify nowMs title
    let videoUrl := optNonempty (form.video_url.map jsTrim)
    let thumbInput := optNonempty (form.thumbnail_url.map jsTrim)
    let thumbnailUrl :=
      match thumbInput with
      | some t => some t
      | none => (extractId videoUrl).map youtubeThumbnailUrl
    match createVideo
        { title := title, slug := slug,
          description := optNonempty (form.description.map jsTrim),
          video_url := videoUrl, thumbnail_url := thumbnailUrl,
          tags := some (parseTags form.tags) } nowTs st with
    | .ok (_, st2) => ("/admin?flash=Video+pack+created", st2)
    | .error _ => ("/admin?error=Failed+to+create+video", st)

/-- Model of `handleUpdateVideo` (`src/server.ts`): validates a non-empty
trimmed title, optionally enriches the thumbnail, runs `updateVideo`
(which never throws for a missing id), and redirects with
`flash=Changes+saved`. -/
def handleUpdateVideo (extractId : ExtractId) (videoId : Nat)
    (form : VideoForm) (nowTs : String) (st : VideoStore) :
    String × VideoStore :=
  let title := (form.title.map jsTrim).getD ""
  if title = "" then ("/admin?error=Title+is+required", st)
  else
    let videoUrl := optNonempty (form.video_url.map jsTrim)
    let thumbInput := optNonempty (form.thumbnail_url.map jsTrim)
    let thumbnailUrl :=
      match thumbInput with
      | some t => some t
      | none => (extractId videoUrl).map youtubeThumbnailUrl
    ("/admin?flash=Changes+saved",
      updateVideo videoId
        { title := title,
          description := optNonempty (form.description.map jsTrim),
          video_url := videoUrl, thumbnail_url := thumbnailUrl,
          tags := some (parseTags form.tags) } nowTs st)

/-! ## Asset filename derivation (`src/server.ts`) -/

/-- Worker for `replRunsMin2`: `inRun` records that the current character
continues a run whose single replacement `r` has already been emitted. -/
def replRunsMin2Aux (p : Char → Bool) (r : Char) : Bool → List Char → List Char
  | _, [] => []
  | inRun, [c] =>
    if p c then (if inRun then [] else [c]) else [c]
  | inRun, c :: d :: rest =>
    if p c then
      if inRun then replRunsMin2Aux p r true (d :: rest)
      else if p d then r :: replRunsMin2Aux p r true (d :: rest)
      else c :: replRunsMin2Aux p r false (d :: rest)
    else c :: replRunsMin2Aux p r false (d :: rest)

/-- Replaces every maximal run of at least two characters satisfying `p` by
the single character `r` (a global regex replace of `p{2,}` by `r`);
isolated matching characters are kept. -/
def replRunsMin2 (p : Char → Bool) (r : Char) (l : List Char) : List Char :=
  replRunsMin2Aux p r false l

/-- The character class `[\r\n]`. -/
def isCrlfChar (c : Char) : Bool := c = '\r' || c = '\n'

/-- The character class `[<>:"|?*]` (illegal filename characters). -/
def isIllegalFnChar (c : Char) : Bool :=
  c = '<' || c = '>' || c = ':' || c = '"' || c = '|' || c = '?' || c = '*'

/-- The `withoutPath`/`withoutIllegal`/`collapsedWhitespace` stages of
`sanitizeFilename` (`src/server.ts`): map path separators to `-`, drop the
illegal characters, collapse whitespace runs of length ≥ 2 to one
space. -/
def sanitizeStem (s : String) : List Char :=
  replRunsMin2 jsWhitespace ' '
    ((s.data.map (fun c => if c = '\\' || c = '/' then '-' else c)).filter
      (fun c => !isIllegalFnChar c))

/-- Model of `sanitizeFilename` (`src/server.ts`): replace CR/LF runs by a
space, trim, reject empties to the `asset-${Date.now()}.txt` fallback,
apply `sanitizeStem`, and cap at 180 characters (falling back again if
that leaves nothing). -/
def sanitizeFilename (nowMs : Nat) (input : Option String) : String :=
  let fallback := "asset-" ++ Nat.repr nowMs ++ ".txt"
  match input with
  | none => fallback
  | some i =>
    if i = "" then fallback
    else
      let trimmed := jsTrim (String.mk (replRuns isCrlfChar ' ' i.data))
      if trimmed = "" then fallback
      else
        let sliced := (sanitizeStem trimmed).take 180
        if sliced = [] then fallback else String.mk sliced

/-- Base-name choice of `resolveFilename` (`src/server.ts`): a non-blank
provided filename wins over the label. -/
def resolveBase (label : String) (provided : Option String) : String :=
  match provided with
  | some p => if 0 < (jsTrim p).length then p else label
  | none => label

/-- Extension step of `resolveFilename` (`src/server.ts`): append `.txt`
when the base has no dot. -/
def withExtensionOf (base : String) : String :=
  if base.data.contains '.' then base else base ++ ".txt"

/-- Model of `resolveFilename` (`src/server.ts`): prefer a non-blank
provided filename over the label, append `.txt` when the base has no dot,
then sanitize. -/
def resolveFilename (nowMs : Nat) (label : String) (provided : Option String) :
    String :=
  sanitizeFilename nowMs (some (withExtensionOf (resolveBase label provided)))

/-- Model of `normalizeSnippetContent` (`src/server.ts`): replace each CRLF
pair by LF. -/
def normCrlf : List Char → List Char
  | '\r' :: '\n' :: rest => '\n' :: normCrlf rest
  | c :: rest => c :: normCrlf rest
  | [] => []

def normalizeSnippetContent (s : String) : String :=
  String.mk (normCrlf s.data)

/-- Model of `detectMimeTypeFromFilename` (`src/server.ts`): switch on the
lowercased last dot-separated component. -/
def detectMimeTypeFromFilename (filename : String) : String :=
  let parts := splitOnChar '.' filename.data
  let ext := String.mk ((parts.getLast?.getD []).map Char.toLower)
  if ext = "yml" || ext = "yaml" then "text/yaml; charset=utf-8"
  else if ext = "json" then "application/json; charset=utf-8"
  else if ext = "sh" then "text/x-shellscript; charset=utf-8"
  else if ext = "ts" || ext = "tsx" then "application/typescript; charset=utf-8"
  else if ext = "js" || ext = "jsx" then "application/javascript; charset=utf-8"
  else if ext = "md" || ext = "mdx" then "text/markdown; charset=utf-8"
  else "text/plain; charset=utf-8"

/-! ## Assets table and handlers

The repository ships the current `src/server.ts`, which imports
`createAsset` (labels plus optional url/filename/content) and
`getAssetById` from `./db`; only an older revision of `db.ts` (one without
the `filename`/`content` columns and without `getAssetById`) is present in
the sources.  The two store operations below are therefore modelled from
the spec. -/

/-- Modelled from the spec: a row of the current `assets` table — the spec
describes an Asset as label, an optional external URL OR optional inline
content + filename, and a sort position, belonging to one content item. -/
structure AssetRow where
  id : Nat
  video_id : Nat
  label : String
  url : Option String
  filename : Option String
  content : Option String
  sort_order : Nat
  deriving Repr, DecidableEq

structure AssetStore where
  rows : List AssetRow
  nextId : Nat
  deriving Repr, DecidableEq

/-- Input of `createAsset` as called by `handleCreateAsset`. -/
structure CreateAssetData where
  label : String
  url : Option String
  filename : Option String
  content : Option String
  deriving Repr, DecidableEq

/-- Modelled from the spec: `createAsset(videoId, {label, url?, filename?,
content?})` inserts one asset row for the item (sort position defaulting
to 0) with a fresh autoincrement id. -/
def createAsset (videoId : Nat) (d : CreateAssetData) (st : AssetStore) :
    AssetStore :=
  { rows := st.rows ++
      [{ id := st.nextId, video_id := videoId, label := d.label,
         url := d.url, filename := d.filename, content := d.content,
         sort_order := 0 }],
    nextId := st.nextId + 1 }

/-- Modelled from the spec: `getAssetById` fetches the asset row with the
given id, if any. -/
def getAssetById (id : Nat) (st : AssetStore) : Option AssetRow :=
  st.rows.find? (fun r => r.id == id)

/-- Form fields of the add-asset form. -/
structure AssetForm where
  label : Option String
  url : Option String
  filename : Option String
  content : Option String
  deriving Repr, DecidableEq

/-- Model of `handleCreateAsset` (`src/server.ts`): trims the label and
URL, normalizes the snippet content, requires a label and at least one of
content/URL, derives a filename only for inline content, and stores the
asset with the URL discarded whenever inline content is present. -/
def handleCreateAsset (videoId : Nat) (form : AssetForm) (nowMs : Nat)
    (st : AssetStore) : String × AssetStore :=
  let label := (form.label.map jsTrim).getD ""
  let urlInput := form.url.map jsTrim
  let filenameInput := form.filename
  let rawContent := form.content.getD ""
  let normalizedContent :=
    if rawContent ≠ "" then normalizeSnippetContent rawContent else ""
  let hasContent : Prop := 0 < (jsTrim normalizedContent).length
  let normalizedUrl :=
    match urlInput with
    | some u => if 0 < u.length then some u else none
    | none => none
  if label = "" then ("/admin?error=Asset+label+is+required", st)
  else if ¬ hasContent ∧ normalizedUrl = none then
    ("/admin?error=Provide+content+or+a+URL", st)
  else
    let filename :=
      if hasContent then some (resolveFilename nowMs label filenameInput)
      else none
    let st2 := createAsset videoId
      { label := label,
        url := if hasContent then none else normalizedUrl,
        filename := filename,
        content := if hasContent then some normalizedContent else none } st
    ("/admin?flash=Asset+added", st2)

/-- Responses of the download endpoint: a streamed file (filename as used
for the `content-disposition`/`content-type` headers, MIME type, body) or
`404 Not Found`. -/
inductive DlResp where
  | ok (filename mime body : String)
  | notFound
  deriving Repr, DecidableEq

/-- Model of `handleAssetDownload` (`src/server.ts`): 404 when the asset is
missing or carries no (non-empty) inline content; otherwise stream the
content under the stored filename, or `asset-${id}.txt` when the stored
filename is blank. -/
def handleAssetDownload (assetId : Nat) (st : AssetStore) : DlResp :=
  match getAssetById assetId st with
  | none => .notFound
  | some asset =>
    match asset.content with
    | none => .notFound
    | some content =>
      if content = "" then .notFound
      else
        let filename :=
          match asset.filename with
          | some f =>
            if 0 < (jsTrim f).length then f
            else "asset-" ++ Nat.repr assetId ++ ".txt"
          | none => "asset-" ++ Nat.repr assetId ++ ".txt"
        .ok filename (detectMimeTypeFromFilename filename) content

/-! ## Request router and access gate (`Bun.serve` fetch + `withAuth` in
`src/server.ts`)

The dispatcher is modelled as a function of the request method, the URL
pathname, and the two authentication facts it consults:
`isAuthenticated(request)` and `adminMustChangePassword()`.  Its result
distinguishes invoking a route handler from responding directly with a
redirect / static body / 404, which is exactly the control flow of the
source `fetch` function. -/

/-- Tags for the route handlers of `src/server.ts`. -/
inductive Handler where
  | servePublic
  | serveApi
  | serveAdmin
  | handleLogin
  | servePasswordChange
  | handlePasswordChange
  | handleLogout
  | handleAssetDownload (assetId : Nat)
  | handleUpdateVideo (videoId : Nat)
  | handleDeleteVideo (videoId : Nat)
  | handleCreateAsset (videoId : Nat)
  | handleDeleteAsset (assetId : Nat)
  | handleCreateVideo
  deriving Repr, DecidableEq

/-- Outcome of the dispatcher: a handler is invoked, or the dispatcher
itself responds (302 redirect, a static 200 body, or 404). -/
inductive RouteResult where
  | invoked (h : Handler)
  | redirected (location : String)
  | okText (body : String)
  | notFound
  deriving Repr, DecidableEq

/-- Model of `withAuth` (`src/server.ts`). -/
def withAuth (authed mustChange allowDuringPasswordReset : Bool)
    (h : Handler) : RouteResult :=
  if !authed then .redirected "/admin?error=Please+login"
  else if mustChange && !allowDuringPasswordReset then
    .redirected "/admin/password"
  else .invoked h

/-- Consumes an exact expected character sequence from the front of a
path, returning the remainder (or `none` on mismatch). -/
def dropExact : List Char → List Char → Option (List Char)
  | [], r => some r
  | p :: ps, c :: cs => if c = p then dropExact ps cs else none
  | _ :: _, [] => none

/-- Exact pathname comparison (`pathname === lit`). -/
def pathIs (lit : String) (p : List Char) : Bool :=
  match dropExact lit.data p with
  | some [] => true
  | _ => false

/-- Numeric value of a digit sequence (`Number(...)` on a `\d+` capture). -/
def charsToNat (cs : List Char) : Nat :=
  cs.foldl (fun a c => a * 10 + (c.toNat - 48)) 0

/-- Match of regex `^{pre}(\d+)$` against a pathname. -/
def matchIdEnd (pre : String) (p : List Char) : Option Nat :=
  match dropExact pre.data p with
  | some rest =>
    if rest ≠ [] ∧ rest.all Char.isDigit then some (charsToNat rest) else none
  | none => none

/-- Match of regex `^{pre}(\d+){suffixLit}$` against a pathname (the `\d+`
is greedy, so the digit run is maximal). -/
def matchIdThen (pre suffixLit : String) (p : List Char) : Option Nat :=
  match dropExact pre.data p with
  | some rest =>
    let ds := rest.takeWhile Char.isDigit
    let rem := rest.drop ds.length
    if ds ≠ [] ∧ rem = suffixLit.data then some (charsToNat ds) else none
  | none => none

/-- Match of regex `^\/downloads\/assets\/(\d+)(?:\/.*)?$`. -/
def matchDownload (p : List Char) : Option Nat :=
  match dropExact "/downloads/assets/".data p with
  | some rest =>
    let ds := rest.takeWhile Char.isDigit
    let rem := rest.drop ds.length
    if ds ≠ [] ∧ (rem = [] ∨ rem.head? = some '/') then some (charsToNat ds)
    else none
  | none => none

/-- Model of the `fetch` dispatcher of `Bun.serve` (`src/server.ts`),
after the opportunistic `pruneSessionsSafely()` call.  Route tests are
performed in source order; `authed` is `isAuthenticated(request)` and
`mustChange` is `adminMustChangePassword()`. -/
def fetchRoute (method pathname : String) (authed mustChange : Bool) :
    RouteResult :=
  let p := pathname.data
  if pathIs "/" p && method = "GET" then .invoked .servePublic
  else if pathIs "/api/videos" p && method = "GET" then .invoked .serveApi
  else if pathIs "/admin" p && method = "GET" then .invoked .serveAdmin
  else if pathIs "/admin/login" p && method = "POST" then
    .invoked .handleLogin
  else if pathIs "/admin/password" p && method = "GET" then
    withAuth authed mustChange true .servePasswordChange
  else if pathIs "/admin/password" p && method = "POST" then
    withAuth authed mustChange true .handlePasswordChange
  else if pathIs "/admin/logout" p && method = "POST" then
    withAuth authed mustChange true .handleLogout
  else if pathIs "/healthz" p then .okText "ok"
  else
    let dl := matchDownload p
    if dl.isSome && method = "GET" then
      .invoked (.handleAssetDownload (dl.getD 0))
    else
      let vu := matchIdEnd "/admin/videos/" p
      if vu.isSome && method = "POST" then
        withAuth authed mustChange false (.handleUpdateVideo (vu.getD 0))
      else
        let vd := matchIdThen "/admin/videos/" "/delete" p
        if vd.isSome && method = "POST" then
          withAuth authed mustChange false (.handleDeleteVideo (vd.getD 0))
        else
          let va := matchIdThen "/admin/videos/" "/assets" p
          if va.isSome && method = "POST" then
            withAuth authed mustChange false (.handleCreateAsset (va.getD 0))
          else
            let ad := matchIdThen "/admin/assets/" "/delete" p
            if ad.isSome && method = "POST" then
              withAuth authed mustChange false (.handleDeleteAsset (ad.getD 0))
            else if pathIs "/admin/videos" p && method = "POST" then
              withAuth authed mustChange false .handleCreateVideo
            else .notFound

/-! ## Supporting lemmas -/

/-- Deleting a session id makes its lookup come back empty. -/
lemma selectSession_deleteSession (id : String) (st : SessionStore) :
    selectSession id (deleteSession id st) = none := by
  rw [selectSession, List.find?_eq_none]
  intro r hr
  have := (List.mem_filter.mp hr).2
  simpa using this

/-! ## Claims -/

/-- C2: for every stored session whose expiry timestamp is strictly before
the current time, `findSession` returns absent and deletes the stored
record, so a second lookup of the same id is also absent; a lookup of a
session whose expiry has not passed returns the record with the store
unchanged. -/
theorem findSession_lazy_expiry (id : String) (nowMs : Int) (st : SessionStore) :
    (∀ r t, selectSession id st = some r →
      parseIsoMillis r.expires_at = some t → t < nowMs →
      findSession id nowMs st = (none, deleteSession id st) ∧
      findSession id nowMs (findSession id nowMs st).2 =
        (none, deleteSession id st)) ∧
    (∀ r t, selectSession id st = some r →
      parseIsoMillis r.expires_at = some t → nowMs ≤ t →
      findSession id nowMs st = (some r, st)) := by
  constructor
  · intro r t hr ht hexp
    have h1 : findSession id nowMs st = (none, deleteSession id st) := by
      simp only [findSession, hr, ht]
      rw [if_pos hexp]
    refine ⟨h1, ?_⟩
    rw [h1]
    rw [findSession, selectSession_deleteSession]
  · intro r t hr ht hlive
    simp only [findSession, hr, ht]
    rw [if_neg (by omega)]

/-- C2 witness: a session one second past its expiry is reported absent and
removed (so the repeated lookup is also absent); a live session is returned
with the store unchanged. -/
theorem findSession_lazy_expiry_witness :
    (findSession "sid1" 1791694801000
        [⟨"sid1", "2026-10-04T05:00:00.000Z", "2026-10-11T05:00:00.000Z",
          none, none⟩] =
      (none, []) ∧
     findSession "sid1" 1791694801000 [] = (none, [])) ∧
    findSession "sid2" 1791694799000
        [⟨"sid2", "2026-10-04T05:00:00.000Z", "2026-10-11T05:00:00.000Z",
          none, none⟩] =
      (some ⟨"sid2", "2026-10-04T05:00:00.000Z", "2026-10-11T05:00:00.000Z",
          none, none⟩,
       [⟨"sid2", "2026-10-04T05:00:00.000Z", "2026-10-11T05:00:00.000Z",
          none, none⟩]) := by
  have h1 := (findSession_lazy_expiry "sid1" 1791694801000
    [⟨"sid1", "2026-10-04T05:00:00.000Z", "2026-10-11T05:00:00.000Z",
      none, none⟩]).1
    ⟨"sid1", "2026-10-04T05:00:00.000Z", "2026-10-11T05:00:00.000Z",
      none, none⟩ 1791694800000 (by decide) (by decide) (by decide)
  have h2 := (findSession_lazy_expiry "sid2" 1791694799000
    [⟨"sid2", "2026-10-04T05:00:00.000Z", "2026-10-11T05:00:00.000Z",
      none, none⟩]).2
    ⟨"sid2", "2026-10-04T05:00:00.000Z", "2026-10-11T05:00:00.000Z",
      none, none⟩ 1791694800000 (by decide) (by decide) (by decide)
  refine ⟨⟨?_, ?_⟩, h2⟩
  · rw [h1.1]; decide
  · have := h1.2
    rw [h1.1] at this
    simpa using this

/-- C6: the session sweep `pruneSessions` compares the stored
`toISOString` text (`YYYY-MM-DDTHH:MM:SS.mmmZ`) against the
`datetime('now')` text (`YYYY-MM-DD HH:MM:SS`) with SQLite TEXT ordering.
Because `T` sorts above the space, a session that expired earlier on the
same UTC day survives the sweep — here one expired 15 hours ago is kept —
even though `findSession` itself classifies the very same record as
expired and deletes it.  This refutes the claim that the sweep deletes
every expired record stored in the format the application writes. -/
theorem pruneSessions_keeps_sameday_expired :
    parseIsoMillis "2026-10-11T05:00:00.000Z" = some 1791694800000 ∧
    DateTime.toEpochMillis ⟨2026, 10, 11, 20, 0, 0, 0⟩ = 1791748800000 ∧
    pruneSessions ⟨2026, 10, 11, 20, 0, 0, 0⟩
      [⟨"sid1", "2026-10-04T20:00:00.000Z", "2026-10-11T05:00:00.000Z",
        none, none⟩] =
      [⟨"sid1", "2026-10-04T20:00:00.000Z", "2026-10-11T05:00:00.000Z",
        none, none⟩] ∧
    findSession "sid1" 1791748800000
      [⟨"sid1", "2026-10-04T20:00:00.000Z", "2026-10-11T05:00:00.000Z",
        none, none⟩] = (none, []) ∧
    pruneSessions ⟨2026, 10, 11, 20, 0, 0, 0⟩
      [⟨"sid1", "2026-10-04T20:00:00.000Z", "2026-10-10T05:00:00.000Z",
        none, none⟩] = [] := by
  decide

/-- Mapping a function that fixes every element of a list is the
identity. -/
lemma list_map_id_of_forall {α : Type} (l : List α) (f : α → α)
    (h : ∀ a ∈ l, f a = a) : l.map f = l := by
  induction l with
  | nil => simp
  | cons a l ih =>
    simp only [List.map_cons, h a (by simp)]
    rw [ih (fun x hx => h x (by simp [hx]))]

/-- C4: after an item is stored, creating another item with the same slug
fails with `ConflictError` (the slug uniqueness constraint), the failed
attempt leaves the store unchanged, and the first item is still stored
with its fields. -/
theorem createVideo_slug_conflict (d1 d2 : CreateVideoData)
    (ts1 ts2 : String) (st st1 : VideoStore) (newId : Nat)
    (hslug : d2.slug = d1.slug)
    (h1 : createVideo d1 ts1 st = .ok (newId, st1)) :
    createVideo d2 ts2 st1 = .error .ConflictError ∧
    createVideoRun d2 ts2 st1 = st1 ∧
    ∃ row ∈ st1.rows, row.slug = d1.slug ∧ row.title = d1.title := by
  rw [createVideo] at h1
  by_cases hc : st.rows.any (fun r => r.slug == d1.slug)
  · rw [if_pos hc] at h1
    exact absurd h1 (by simp)
  · rw [if_neg hc] at h1
    simp only [Except.ok.injEq, Prod.mk.injEq] at h1
    obtain ⟨-, hst1⟩ := h1
    have hconf : st1.rows.any (fun r => r.slug == d2.slug) = true := by
      rw [← hst1]
      simp [List.any_append, hslug]
    have herr : createVideo d2 ts2 st1 = .error .ConflictError := by
      rw [createVideo, if_pos hconf]
    refine ⟨herr, ?_, ?_⟩
    · rw [createVideoRun, herr]
    · have hmem :
          ({ id := st.nextId, title := d1.title, slug := d1.slug,
             description := d1.description, video_url := d1.video_url,
             tags := d1.tags, thumbnail_url := d1.thumbnail_url,
             created_at := ts1, updated_at := ts1 } : VideoRow) ∈ st1.rows := by
        rw [← hst1]
        simp
      exact ⟨_, hmem, rfl, rfl⟩

/-- C4 witness: two creations with slug `"x"` on an initially empty store;
the second fails with `ConflictError` and changes nothing. -/
theorem createVideo_slug_conflict_witness :
    createVideo ⟨"B", "x", none, none, none, none⟩ "t2"
        ⟨[⟨1, "A", "x", none, none, none, none, "t1", "t1"⟩], 2⟩ =
      .error .ConflictError ∧
    createVideoRun ⟨"B", "x", none, none, none, none⟩ "t2"
        ⟨[⟨1, "A", "x", none, none, none, none, "t1", "t1"⟩], 2⟩ =
      ⟨[⟨1, "A", "x", none, none, none, none, "t1", "t1"⟩], 2⟩ ∧
    ∃ row ∈ (⟨[⟨1, "A", "x", none, none, none, none, "t1", "t1"⟩], 2⟩ :
        VideoStore).rows, row.slug = "x" ∧ row.title = "A" := by
  exact createVideo_slug_conflict ⟨"A", "x", none, none, none, none⟩
    ⟨"B", "x", none, none, none, none⟩ "t1" "t2" ⟨[], 1⟩ _ 1 rfl rfl

/-- C5 counterexample: updating id 1 in an empty store (no such item)
redirects with the success message `flash=Changes+saved` and leaves the
store unchanged — it does not fail with `NotFoundError`, refuting the
claim as stated. -/
theorem handleUpdateVideo_missing_id_counterexample :
    handleUpdateVideo (fun _ => none) 1
        ⟨some "Hello", none, none, none, none, none⟩ "2026-01-01 00:00:00"
        ⟨[], 1⟩ =
      ("/admin?flash=Changes+saved", ⟨[], 1⟩) := by
  decide

/-- C5 (amended): for every id that does not identify a stored content
item, `updateVideo` is a silent no-op — the store is left unchanged, no
error is raised, and the handler reports success. -/
theorem updateVideo_missing_id_silent_noop (id : Nat) (ts : String)
    (st : VideoStore) (h : ∀ r ∈ st.rows, r.id ≠ id) :
    (∀ d : UpdateVideoData, updateVideo id d ts st = st) ∧
    (∀ (extractId : ExtractId) (form : VideoForm) (title : String),
      form.title = some title → jsTrim title ≠ "" →
      handleUpdateVideo extractId id form ts st =
        ("/admin?flash=Changes+saved", st)) := by
  have hnoop : ∀ d : UpdateVideoData, updateVideo id d ts st = st := by
    intro d
    rw [updateVideo]
    have : st.rows.map (fun r =>
        if r.id = id then
          { r with title := d.title, description := d.description,
                   video_url := d.video_url,
                   thumbnail_url := d.thumbnail_url,
                   tags := d.tags, updated_at := ts }
        else r) = st.rows := by
      apply list_map_id_of_forall
      intro r hr
      rw [if_neg (h r hr)]
    rw [this]
  refine ⟨hnoop, ?_⟩
  intro extractId form title hform htne
  rw [handleUpdateVideo, hform]
  simp only [Option.map_some', Option.getD_some]
  rw [if_neg htne, hnoop]

/-- C5 witness: the amended statement at a store holding only item id 1,
updated at the missing id 2. -/
theorem updateVideo_missing_id_silent_noop_witness :
    updateVideo 2 ⟨"T", none, none, none, none⟩ "ts"
        ⟨[⟨1, "A", "a", none, none, none, none, "c", "u"⟩], 2⟩ =
      ⟨[⟨1, "A", "a", none, none, none, none, "c", "u"⟩], 2⟩ ∧
    handleUpdateVideo (fun _ => none) 2
        ⟨some "T", none, none, none, none, none⟩ "ts"
        ⟨[⟨1, "A", "a", none, none, none, none, "c", "u"⟩], 2⟩ =
      ("/admin?flash=Changes+saved",
        ⟨[⟨1, "A", "a", none, none, none, none, "c", "u"⟩], 2⟩) := by
  have h := updateVideo_missing_id_silent_noop 2 "ts"
    ⟨[⟨1, "A", "a", none, none, none, none, "c", "u"⟩], 2⟩ (by decide)
  exact ⟨h.1 _, h.2 (fun _ => none) _ "T" rfl (by decide)⟩

/-- C3: for every password and salt, deriving a hash with
`derivePasswordHash` and verifying the same password with
`passwordsMatch` yields `true`; verifying any password whose derived key
differs (PBKDF2 collision-freeness for the pair, the property the spec
assumes) yields `false`. -/
theorem passwordsMatch_roundtrip (kdf : Kdf) (p q salt : String) :
    passwordsMatch kdf p (derivePasswordHash kdf p salt).hash salt = true ∧
    (kdf q salt ≠ kdf p salt →
      passwordsMatch kdf q (derivePasswordHash kdf p salt).hash salt
        = false) := by
  constructor
  · simp [passwordsMatch, derivePasswordHash, hexDecodeChars_hexEncode]
  · intro hne
    simp only [passwordsMatch, derivePasswordHash, hexDecodeChars_hexEncode]
    by_cases hl : (kdf q salt).length = (kdf p salt).length
    · rw [if_neg (by simp [hl])]
      exact beq_eq_false_iff_ne.mpr hne
    · rw [if_pos (by simp [hl])]

/-- C3 witness: the roundtrip at a concrete toy key-derivation function,
password and salt; the differing password fails verification. -/
theorem passwordsMatch_roundtrip_witness :
    passwordsMatch (fun pw s => (pw ++ s).data.map
        (fun c => ⟨c.toNat % 256, Nat.mod_lt _ (by decide)⟩))
      "alpha"
      (derivePasswordHash (fun pw s => (pw ++ s).data.map
          (fun c => ⟨c.toNat % 256, Nat.mod_lt _ (by decide)⟩))
        "alpha" "s1").hash "s1" = true ∧
    passwordsMatch (fun pw s => (pw ++ s).data.map
        (fun c => ⟨c.toNat % 256, Nat.mod_lt _ (by decide)⟩))
      "beta"
      (derivePasswordHash (fun pw s => (pw ++ s).data.map
          (fun c => ⟨c.toNat % 256, Nat.mod_lt _ (by decide)⟩))
        "alpha" "s1").hash "s1" = false := by
  have h := passwordsMatch_roundtrip (fun pw s => (pw ++ s).data.map
      (fun c => ⟨c.toNat % 256, Nat.mod_lt _ (by decide)⟩))
    "alpha" "beta" "s1"
  exact ⟨h.1, h.2 (by decide)⟩

/-- C7: creating an item with a non-empty title and no explicit slug
stores `slugify(title)` — the title lowercased, each maximal run of
non-alphanumeric characters collapsed to a single `-`, leading/trailing
`-` stripped, capped at 64 characters, with the `video-${Date.now()}`
fallback when empty — and in particular the title `"Hello, World!"`
yields the slug `"hello-world"` at every timestamp. -/
theorem handleCreateVideo_derives_slug (extractId : ExtractId)
    (form : VideoForm) (nowMs : Nat) (ts : String) (st : VideoStore)
    (title : String) (hform : form.title = some title)
    (htne : jsTrim title ≠ "")
    (hslug : (form.slug.map jsTrim).getD "" = "")
    (hnoconf : st.rows.any
      (fun r => r.slug == slugify nowMs (jsTrim title)) = false) :
    (∃ row,
      (handleCreateVideo extractId form nowMs ts st).2.rows =
        st.rows ++ [row] ∧
      row.slug = slugify nowMs (jsTrim title) ∧
      row.title = jsTrim title) ∧
    (handleCreateVideo extractId form nowMs ts st).1 =
      "/admin?flash=Video+pack+created" ∧
    (∀ n : Nat, slugify n "Hello, World!" = "hello-world") := by
  rw [handleCreateVideo, hform]
  simp only [Option.map_some', Option.getD_some]
  rw [if_neg htne, hslug]
  simp only [ne_eq, not_true_eq_false, if_false, createVideo, hnoconf,
    Bool.false_eq_true, if_false]
  refine ⟨⟨_, rfl, rfl, rfl⟩, ?_, ?_⟩
  · trivial
  · intro n
    rfl

/-- C7 witness: the derivation at the concrete title `"Hello, World!"` on
an empty store. -/
theorem handleCreateVideo_derives_slug_witness :
    (∃ row,
      (handleCreateVideo (fun _ => none)
          ⟨some "Hello, World!", none, none, none, none, none⟩ 7 "ts"
          ⟨[], 1⟩).2.rows = ([] : List VideoRow) ++ [row] ∧
      row.slug = slugify 7 (jsTrim "Hello, World!") ∧
      row.title = jsTrim "Hello, World!") ∧
    (handleCreateVideo (fun _ => none)
        ⟨some "Hello, World!", none, none, none, none, none⟩ 7 "ts"
        ⟨[], 1⟩).1 = "/admin?flash=Video+pack+created" ∧
    (∀ n : Nat, slugify n "Hello, World!" = "hello-world") := by
  exact handleCreateVideo_derives_slug (fun _ => none)
    ⟨some "Hello, World!", none, none, none, none, none⟩ 7 "ts" ⟨[], 1⟩
    "Hello, World!" rfl (by decide) rfl (by decide)

/-- Strings other than the empty string have positive length. -/
lemma string_length_pos_of_ne_empty (s : String) (h : s ≠ "") :
    0 < s.length := by
  rcases s with ⟨l⟩
  cases l with
  | nil => exact absurd rfl h
  | cons c cs => simp [String.length]

/-- C9: when an asset-creation request supplies both non-blank inline
content and a non-empty URL, the asset is stored as an inline-content
asset only — normalized content and a derived filename are persisted and
the supplied URL is discarded (the stored asset has no URL). -/
theorem handleCreateAsset_inline_discards_url (videoId : Nat)
    (form : AssetForm) (nowMs : Nat) (st : AssetStore)
    (label content url : String)
    (hl : form.label = some label) (hlt : jsTrim label ≠ "")
    (hc : form.content = some content)
    (hcnb : jsTrim (normalizeSnippetContent content) ≠ "")
    (hu : form.url = some url) (_hunb : jsTrim url ≠ "") :
    (handleCreateAsset videoId form nowMs st).2.rows =
      st.rows ++
        [{ id := st.nextId, video_id := videoId, label := jsTrim label,
           url := none,
           filename := some (resolveFilename nowMs (jsTrim label)
             form.filename),
           content := some (normalizeSnippetContent content),
           sort_order := 0 }] ∧
    (handleCreateAsset videoId form nowMs st).1 =
      "/admin?flash=Asset+added" := by
  have hcne : content ≠ "" := by
    intro h
    apply hcnb
    rw [h]
    rfl
  have hpos : 0 < (jsTrim (normalizeSnippetContent content)).length :=
    string_length_pos_of_ne_empty _ hcnb
  rw [handleCreateAsset, hl, hc, hu]
  simp only [Option.map_some', Option.getD_some]
  rw [if_pos hcne, if_neg hlt]
  rw [if_neg (show ¬ (¬ 0 < (jsTrim (normalizeSnippetContent content)).length
    ∧ _ = none) from fun hq => absurd hpos hq.1)]
  simp only [createAsset, if_pos hpos]
  exact ⟨trivial, trivial⟩

/-- C9 witness: creating an asset with label, URL and CRLF content stores
normalized inline content, a derived filename, and no URL. -/
theorem handleCreateAsset_inline_discards_url_witness :
    (handleCreateAsset 1
        ⟨some "compose file", some "https://example.com/x", none,
          some "services:\r\n  app: {}"⟩ 5 ⟨[], 1⟩).2.rows =
      ([] : List AssetRow) ++
        [{ id := 1, video_id := 1, label := jsTrim "compose file",
           url := none,
           filename := some (resolveFilename 5 (jsTrim "compose file") none),
           content := some (normalizeSnippetContent "services:\r\n  app: {}"),
           sort_order := 0 }] ∧
    (handleCreateAsset 1
        ⟨some "compose file", some "https://example.com/x", none,
          some "services:\r\n  app: {}"⟩ 5 ⟨[], 1⟩).1 =
      "/admin?flash=Asset+added" := by
  exact handleCreateAsset_inline_discards_url 1
    ⟨some "compose file", some "https://example.com/x", none,
      some "services:\r\n  app: {}"⟩ 5 ⟨[], 1⟩
    "compose file" "services:\r\n  app: {}" "https://example.com/x"
    rfl (by decide) rfl (by decide) rfl (by decide)

/-- C10: the download endpoint responds 404 both when no asset with the id
exists and when the asset carries no (non-empty) inline content, such as
an external-URL-only asset; the `.notFound` response carries no redirect
and never serves the external URL. -/
theorem handleAssetDownload_missing_or_external_404 (assetId : Nat)
    (st : AssetStore)
    (h : getAssetById assetId st = none ∨
      ∃ a, getAssetById assetId st = some a ∧
        (a.content = none ∨ a.content = some "")) :
    handleAssetDownload assetId st = .notFound := by
  rcases h with h | ⟨a, ha, hc⟩
  · simp only [handleAssetDownload, h]
  · rcases hc with hc | hc
    · simp only [handleAssetDownload, ha, hc]
    · simp [handleAssetDownload, ha, hc]

/-- C10 witness: 404 for a missing id and for an external-URL-only
asset. -/
theorem handleAssetDownload_missing_or_external_404_witness :
    handleAssetDownload 99
        ⟨[⟨1, 1, "lbl", some "https://example.com/f", none, none, 0⟩], 2⟩ =
      .notFound ∧
    handleAssetDownload 1
        ⟨[⟨1, 1, "lbl", some "https://example.com/f", none, none, 0⟩], 2⟩ =
      .notFound := by
  constructor
  · exact handleAssetDownload_missing_or_external_404 99
      ⟨[⟨1, 1, "lbl", some "https://example.com/f", none, none, 0⟩], 2⟩
      (Or.inl (by decide))
  · exact handleAssetDownload_missing_or_external_404 1
      ⟨[⟨1, 1, "lbl", some "https://example.com/f", none, none, 0⟩], 2⟩
      (Or.inr ⟨⟨1, 1, "lbl", some "https://example.com/f", none, none, 0⟩,
        by decide, Or.inl rfl⟩)

/-! ## Filename-extension lemmas for the download endpoint -/

set_option maxRecDepth 10000

/-- A character that the predicate rejects survives `dropWhile`. -/
lemma mem_dropWhile_of_not {p : Char → Bool} {c : Char} {l : List Char}
    (hc : c ∈ l) (hp : p c = false) : c ∈ l.dropWhile p := by
  induction l with
  | nil => cases hc
  | cons a rest ih =>
    by_cases ha : p a = true
    · rw [List.dropWhile_cons, if_pos ha]
      rcases List.mem_cons.mp hc with rfl | h
      · rw [ha] at hp
        cases hp
      · exact ih h
    · rw [List.dropWhile_cons, if_neg ha]
      exact hc

/-- A non-whitespace character of a string survives `jsTrim`. -/
lemma mem_jsTrim_of_not {c : Char} {s : String} (hc : c ∈ s.data)
    (hp : jsWhitespace c = false) : c ∈ (jsTrim s).data := by
  show c ∈ ((s.data.dropWhile jsWhitespace).reverse.dropWhile
    jsWhitespace).reverse
  rw [List.mem_reverse]
  refine mem_dropWhile_of_not ?_ hp
  rw [List.mem_reverse]
  exact mem_dropWhile_of_not hc hp

/-- A character that the run predicate rejects survives `replRuns`. -/
lemma mem_replRuns_of_not {p : Char → Bool} {r c : Char} (hp : p c = false) :
    ∀ l : List Char, c ∈ l → c ∈ replRuns p r l := by
  intro l
  induction l with
  | nil => intro h; cases h
  | cons a tail ih =>
    intro hc
    cases tail with
    | nil =>
      rcases List.mem_cons.mp hc with rfl | h
      · simp [replRuns, hp]
      · cases h
    | cons d rest =>
      rcases List.mem_cons.mp hc with rfl | h
      · simp [replRuns, hp]
      · have hrec := ih h
        by_cases ha : p a = true
        · by_cases hd : p d = true
          · simpa [replRuns, ha, hd] using hrec
          · simp only [replRuns, if_pos ha, if_neg hd]
            exact List.mem_cons_of_mem _ hrec
        · simp only [replRuns, if_neg ha]
          exact List.mem_cons_of_mem _ hrec

/-- A character that the run predicate rejects survives
`replRunsMin2Aux`, whatever the run state. -/
lemma mem_replRunsMin2Aux_of_not {p : Char → Bool} {r c : Char}
    (hp : p c = false) :
    ∀ (l : List Char) (b : Bool), c ∈ l → c ∈ replRunsMin2Aux p r b l := by
  intro l
  induction l with
  | nil => intro b h; cases h
  | cons a tail ih =>
    intro b hc
    cases tail with
    | nil =>
      rcases List.mem_cons.mp hc with rfl | h
      · simp [replRunsMin2Aux, hp]
      · cases h
    | cons d rest =>
      rcases List.mem_cons.mp hc with rfl | h
      · simp [replRunsMin2Aux, hp]
      · have hrec := fun b => ih b h
        by_cases ha : p a = true
        · by_cases hb : b = true
          · simpa [replRunsMin2Aux, ha, hb] using hrec true
          · by_cases hd : p d = true
            · simp only [replRunsMin2Aux, if_pos ha, hb, if_neg, if_pos hd,
                Bool.false_eq_true, if_false]
              exact List.mem_cons_of_mem _ (hrec true)
            · simp only [replRunsMin2Aux, if_pos ha, hb, if_neg hd,
                Bool.false_eq_true, if_false]
              exact List.mem_cons_of_mem _ (hrec false)
        · simp only [replRunsMin2Aux, if_neg ha]
          exact List.mem_cons_of_mem _ (hrec false)

/-- The dot survives the `sanitizeStem` stages. -/
lemma dot_mem_sanitizeStem {s : String} (hc : ('.' : Char) ∈ s.data) :
    ('.' : Char) ∈ sanitizeStem s := by
  unfold sanitizeStem replRunsMin2
  apply mem_replRunsMin2Aux_of_not (by decide)
  refine List.mem_filter.mpr ⟨?_, by decide⟩
  have hfix : (if ('.' : Char) = '\\' || ('.' : Char) = '/' then '-'
      else ('.' : Char)) = ('.' : Char) := by decide
  exact hfix ▸ List.mem_map_of_mem _ hc

/-- The base name with extension always contains a dot. -/
lemma dot_mem_withExtensionOf (base : String) :
    ('.' : Char) ∈ (withExtensionOf base).data := by
  unfold withExtensionOf
  by_cases h : base.data.contains '.' = true
  · rw [if_pos h]
    exact List.elem_iff.mp h
  · rw [if_neg h]
    rw [String.data_append]
    exact List.mem_append.mpr (Or.inr (by decide))

/-- The `asset-${now}.txt` fallback contains a dot. -/
lemma dot_mem_fallback (nowMs : Nat) :
    ('.' : Char) ∈ ("asset-" ++ Nat.repr nowMs ++ ".txt").data := by
  rw [String.data_append]
  exact List.mem_append.mpr (Or.inr (by decide))

/-- Provided the sanitized stem of the base name fits within the 180
character cap, the resolved filename contains a dot. -/
lemma dot_mem_resolveFilename (nowMs : Nat) (label : String)
    (provided : Option String)
    (hcap : (sanitizeStem (jsTrim (String.mk (replRuns isCrlfChar ' '
      (withExtensionOf (resolveBase label provided)).data)))).length ≤ 180) :
    ('.' : Char) ∈ (resolveFilename nowMs label provided).data := by
  rw [resolveFilename, sanitizeFilename]
  by_cases h0 : withExtensionOf (resolveBase label provided) = ""
  · rw [if_pos h0]
    exact dot_mem_fallback nowMs
  · rw [if_neg h0]
    by_cases h1 : jsTrim (String.mk (replRuns isCrlfChar ' '
        (withExtensionOf (resolveBase label provided)).data)) = ""
    · rw [if_pos h1]
      exact dot_mem_fallback nowMs
    · rw [if_neg h1]
      have hdot : ('.' : Char) ∈ sanitizeStem (jsTrim (String.mk
          (replRuns isCrlfChar ' '
            (withExtensionOf (resolveBase label provided)).data))) := by
        apply dot_mem_sanitizeStem
        apply mem_jsTrim_of_not ?_ (by decide)
        show ('.' : Char) ∈ replRuns isCrlfChar ' '
          (withExtensionOf (resolveBase label provided)).data
        exact mem_replRuns_of_not (by decide) _
          (dot_mem_withExtensionOf (resolveBase label provided))
      rw [List.take_of_length_le hcap]
      by_cases h2 : sanitizeStem (jsTrim (String.mk (replRuns isCrlfChar ' '
          (withExtensionOf (resolveBase label provided)).data))) = []
      · rw [if_pos h2]
        exact dot_mem_fallback nowMs
      · rw [if_neg h2]
        exact hdot

/-- C8 counterexample: an inline-content asset whose 200-character label
(no dot anywhere) makes `resolveFilename` append `.txt` and then cap at
180 characters, cutting the extension off.  The asset is retrievable, but
the filename used in the response is 180 `a` characters with no dot — so
the response filename does not end in an extension, refuting the claim as
stated. -/
theorem asset_filename_cap_counterexample :
    (handleCreateAsset 1
        ⟨some (String.mk (List.replicate 200 'a')), none, none, some "x"⟩ 0
        ⟨[], 1⟩).2.rows =
      [{ id := 1, video_id := 1,
         label := String.mk (List.replicate 200 'a'),
         url := none,
         filename := some (String.mk (List.replicate 180 'a')),
         content := some "x", sort_order := 0 }] ∧
    handleAssetDownload 1
        (handleCreateAsset 1
          ⟨some (String.mk (List.replicate 200 'a')), none, none, some "x"⟩ 0
          ⟨[], 1⟩).2 =
      .ok (String.mk (List.replicate 180 'a')) "text/plain; charset=utf-8"
        "x" ∧
    (String.mk (List.replicate 180 'a')).data.contains '.' = false := by
  decide

/-- C8 (amended): every asset created with non-blank inline content and no
URL is retrievable via the download endpoint, which streams the normalized
content under the derived filename; that filename carries an extension
separator (`.txt` having been appended when the base name had no dot),
provided the sanitized base name fits within the 180-character cap — a
longer base name can lose its extension to truncation. -/
theorem inline_asset_download_has_extension (videoId : Nat)
    (form : AssetForm) (nowMs : Nat) (st : AssetStore)
    (label content : String)
    (hl : form.label = some label) (hlt : jsTrim label ≠ "")
    (hc : form.content = some content)
    (hcnb : jsTrim (normalizeSnippetContent content) ≠ "")
    (hu : form.url = none)
    (hfresh : ∀ r ∈ st.rows, r.id ≠ st.nextId)
    (hcap : (sanitizeStem (jsTrim (String.mk (replRuns isCrlfChar ' '
      (withExtensionOf (resolveBase (jsTrim label)
        form.filename)).data)))).length ≤ 180) :
    handleAssetDownload st.nextId (handleCreateAsset videoId form nowMs st).2 =
      .ok (resolveFilename nowMs (jsTrim label) form.filename)
        (detectMimeTypeFromFilename
          (resolveFilename nowMs (jsTrim label) form.filename))
        (normalizeSnippetContent content) ∧
    (resolveFilename nowMs (jsTrim label) form.filename).data.contains '.'
      = true := by
  have hcne : content ≠ "" := by
    intro h
    apply hcnb
    rw [h]
    rfl
  have hpos : 0 < (jsTrim (normalizeSnippetContent content)).length :=
    string_length_pos_of_ne_empty _ hcnb
  have hncne : normalizeSnippetContent content ≠ "" := by
    intro h
    apply hcnb
    rw [h]
    rfl
  have hdot : ('.' : Char) ∈
      (resolveFilename nowMs (jsTrim label) form.filename).data :=
    dot_mem_resolveFilename nowMs (jsTrim label) form.filename hcap
  have htrimfn : ('.' : Char) ∈
      (jsTrim (resolveFilename nowMs (jsTrim label) form.filename)).data :=
    mem_jsTrim_of_not hdot (by decide)
  have hfnpos :
      0 < (jsTrim (resolveFilename nowMs (jsTrim label)
        form.filename)).length := by
    have hne := List.ne_nil_of_mem htrimfn
    rcases hmk : jsTrim (resolveFilename nowMs (jsTrim label) form.filename)
      with ⟨l⟩
    rw [hmk] at hne
    cases l with
    | nil => exact absurd rfl hne
    | cons x xs => simp [String.length]
  -- reduce the creation step
  have hrows : (handleCreateAsset videoId form nowMs st).2.rows =
      st.rows ++
        [{ id := st.nextId, video_id := videoId, label := jsTrim label,
           url := none,
           filename := some (resolveFilename nowMs (jsTrim label)
             form.filename),
           content := some (normalizeSnippetContent content),
           sort_order := 0 }] := by
    rw [handleCreateAsset, hl, hc, hu]
    simp only [Option.map_some', Option.getD_some]
    rw [if_pos hcne, if_neg hlt]
    rw [if_neg (show ¬ (¬ 0 < (jsTrim
        (normalizeSnippetContent content)).length ∧ _ = none) from
      fun hq => absurd hpos hq.1)]
    simp only [createAsset, if_pos hpos, resolveFilename]
  -- reduce the lookup over the appended row
  have hfind : getAssetById st.nextId
      (handleCreateAsset videoId form nowMs st).2 =
      some { id := st.nextId, video_id := videoId, label := jsTrim label,
             url := none,
             filename := some (resolveFilename nowMs (jsTrim label)
               form.filename),
             content := some (normalizeSnippetContent content),
             sort_order := 0 } := by
    rw [getAssetById, hrows, List.find?_append]
    have hnone : st.rows.find? (fun r => r.id == st.nextId) = none := by
      rw [List.find?_eq_none]
      intro r hr
      simp [hfresh r hr]
    rw [hnone]
    simp
  constructor
  · rw [handleAssetDownload, hfind]
    simp only [if_neg hncne, if_pos hfnpos]
  · exact List.elem_iff.mpr hdot

/-- C8 witness for the amended statement: a snippet asset labelled
`"compose file"` (no dot, well under the cap) is downloadable as
`compose file.txt`. -/
theorem inline_asset_download_has_extension_witness :
    handleAssetDownload 1
        (handleCreateAsset 1
          ⟨some "compose file", none, none, some "x"⟩ 3 ⟨[], 1⟩).2 =
      .ok (resolveFilename 3 (jsTrim "compose file") none)
        (detectMimeTypeFromFilename (resolveFilename 3
          (jsTrim "compose file") none))
        (normalizeSnippetContent "x") ∧
    (resolveFilename 3 (jsTrim "compose file") none).data.contains '.'
      = true := by
  exact inline_asset_download_has_extension 1
    ⟨some "compose file", none, none, some "x"⟩ 3 ⟨[], 1⟩
    "compose file" "x" rfl (by decide) rfl (by decide) rfl
    (by intro r hr; cases hr) (by decide)

/-- Consuming an exact prefix leaves the remainder. -/
lemma dropExact_append (pre r : List Char) :
    dropExact pre (pre ++ r) = some r := by
  induction pre with
  | nil => rfl
  | cons c cs ih => simp [dropExact, ih]

/-- `takeWhile` passes over a block that satisfies the predicate
throughout. -/
lemma takeWhile_append_of_all {p : Char → Bool} {l1 l2 : List Char}
    (h : l1.all p = true) :
    (l1 ++ l2).takeWhile p = l1 ++ l2.takeWhile p := by
  induction l1 with
  | nil => simp
  | cons a t ih =>
    simp only [List.all_cons, Bool.and_eq_true] at h
    simp [List.takeWhile_cons, h.1, ih h.2]

/-- C1: with a valid session (`authed`) while the admin credential's
must-change-password flag is set (`mustChange`), every POST to a mutating
content route — `/admin/videos`, `/admin/videos/{id}`,
`/admin/videos/{id}/delete`, `/admin/videos/{id}/assets`,
`/admin/assets/{id}/delete`, for every digit string `{id}` — resolves to a
302 redirect to `/admin/password` without invoking the route handler
(`redirected` and `invoked` are distinct constructors), while the login,
logout, and password-change endpoints still reach their handlers in that
state. -/
theorem pending_rotation_gates_mutations (s : String)
    (hne : s.data ≠ []) (hdig : s.data.all Char.isDigit = true) :
    fetchRoute "POST" "/admin/videos" true true =
      .redirected "/admin/password" ∧
    fetchRoute "POST" ("/admin/videos/" ++ s) true true =
      .redirected "/admin/password" ∧
    fetchRoute "POST" ("/admin/videos/" ++ s ++ "/delete") true true =
      .redirected "/admin/password" ∧
    fetchRoute "POST" ("/admin/videos/" ++ s ++ "/assets") true true =
      .redirected "/admin/password" ∧
    fetchRoute "POST" ("/admin/assets/" ++ s ++ "/delete") true true =
      .redirected "/admin/password" ∧
    fetchRoute "POST" "/admin/login" true true = .invoked .handleLogin ∧
    fetchRoute "POST" "/admin/logout" true true = .invoked .handleLogout ∧
    fetchRoute "GET" "/admin/password" true true =
      .invoked .servePasswordChange ∧
    fetchRoute "POST" "/admin/password" true true =
      .invoked .handlePasswordChange := by
  refine ⟨by decide, ?_, ?_, ?_, ?_, by decide, by decide, by decide,
    by decide⟩
  · simp +decide [fetchRoute, pathIs, matchIdEnd, matchIdThen, matchDownload,
      withAuth, dropExact, String.data_append, hne, hdig]
  · simp +decide [fetchRoute, pathIs, matchIdEnd, matchIdThen, matchDownload,
      withAuth, dropExact, String.data_append, hne, hdig,
      takeWhile_append_of_all, List.drop_left]
  · simp +decide [fetchRoute, pathIs, matchIdEnd, matchIdThen, matchDownload,
      withAuth, dropExact, String.data_append, hne, hdig,
      takeWhile_append_of_all, List.drop_left]
  · simp +decide [fetchRoute, pathIs, matchIdEnd, matchIdThen, matchDownload,
      withAuth, dropExact, String.data_append, hne, hdig,
      takeWhile_append_of_all, List.drop_left]

/-- C1 witness: the gate at the concrete id `12`. -/
theorem pending_rotation_gates_mutations_witness :
    fetchRoute "POST" "/admin/videos" true true =
      .redirected "/admin/password" ∧
    fetchRoute "POST" ("/admin/videos/" ++ "12") true true =
      .redirected "/admin/password" ∧
    fetchRoute "POST" ("/admin/videos/" ++ "12" ++ "/delete") true true =
      .redirected "/admin/password" ∧
    fetchRoute "POST" ("/admin/videos/" ++ "12" ++ "/assets") true true =
      .redirected "/admin/password" ∧
    fetchRoute "POST" ("/admin/assets/" ++ "12" ++ "/delete") true true =
      .redirected "/admin/password" ∧
    fetchRoute "POST" "/admin/login" true true = .invoked .handleLogin ∧
    fetchRoute "POST" "/admin/logout" true true = .invoked .handleLogout ∧
    fetchRoute "GET" "/admin/password" true true =
      .invoked .servePasswordChange ∧
    fetchRoute "POST" "/admin/password" true true =
      .invoked .handlePasswordChange := by
  exact pending_rotation_gates_mutations "12" (by decide) (by decide)

end DownloadHub
